import Mathlib

/-!
Shallow embedding of the hand-written Data Lake client logic of this
repository: the recursive ACL propagation loop
(`DataLakePathClient.setAccessControlRecursiveInternal`), the chunked
parallel upload engine (`DataLakeFileClient.uploadSeekableInternal`), the
continuation-token delete loop (`DataLakePathClient.delete`), and the
bounded worker pool (`Batch`).

Remote interactions are modelled by an oracle: a scripted list of
responses/outcomes, one consumed per remote call, together with a trace of
the requests the client issued.  This mirrors the strictly sequential
structure of the source loops (each iteration awaits one remote call).
-/

namespace DataLake

/-! ## Recursive ACL propagation
From `DataLakePathClient.setAccessControlRecursiveInternal`
(src/unnamed/part_001, lines 327-411). -/

/-- `PathSetAccessControlRecursiveMode` from the source: "set", "modify" or
"remove". -/
inductive PathSetAccessControlRecursiveMode where
  | set
  | modify
  | remove
deriving DecidableEq, Repr

/-- One successful response of the remote
`pathContext.setAccessControlRecursive` call, as consumed by the loop:
optional continuation token and optional per-batch counters
(`response.failureCount`, `response.directoriesSuccessful`,
`response.filesSuccessful`), plus the per-batch failed-entry records
(already in converted form, cf. `toAccessControlChangeFailureArray`). -/
structure AclBatchResponse where
  continuation : Option String
  failureCount : Option Nat
  directoriesSuccessful : Option Nat
  filesSuccessful : Option Nat
  failedEntries : List String
deriving DecidableEq, Repr

/-- Outcome of one scripted remote call: success with a response, or a
thrown transport/service error (identified by its message). -/
inductive AclRemoteOutcome where
  | success (resp : AclBatchResponse)
  | failure (cause : String)
deriving DecidableEq, Repr

/-- The options of `setAccessControlRecursiveInternal` that influence the
loop.  Numeric options are `Option Int` (JavaScript numbers may be zero or
negative); `onProgress` records whether a progress callback was supplied. -/
structure PathChangeAccessControlRecursiveOptions where
  batchSize : Option Int := none
  maxBatches : Option Int := none
  continuationToken : Option String := none
  continueOnFailure : Option Bool := none
  onProgress : Bool := false
deriving DecidableEq, Repr

/-- The aggregate counters of `PathChangeAccessControlRecursiveResponse`. -/
structure AclCounters where
  failedChangesCount : Nat
  changedDirectoriesCount : Nat
  changedFilesCount : Nat
deriving DecidableEq, Repr

/-- `PathChangeAccessControlRecursiveResponse`: final counters and the last
continuation token. -/
structure PathChangeAccessControlRecursiveResponse where
  counters : AclCounters
  continuationToken : Option String
deriving DecidableEq, Repr

/-- `AccessControlChanges`: the progress event handed to
`options.onProgress` after each successful batch. -/
structure AccessControlChanges where
  batchFailures : List String
  batchCounters : AclCounters
  aggregateCounters : AclCounters
  continuationToken : Option String
deriving DecidableEq, Repr

/-- One issued remote `setAccessControlRecursive` request: the mode, the
`maxRecords = options.batchSize`, the continuation token sent, and the
`forceFlag = options.continueOnFailure`. -/
structure AclRequest where
  mode : PathSetAccessControlRecursiveMode
  maxRecords : Option Int
  continuation : Option String
  forceFlag : Option Bool
deriving DecidableEq, Repr

/-- Errors thrown by `setAccessControlRecursiveInternal`: the up-front
`RangeError`s, and `DataLakeAclChangeFailedError` wrapping a remote failure
together with the continuation token as of the last successful batch. -/
inductive AclError where
  | rangeError (msg : String)
  | aclChangeFailed (cause : String) (continuationToken : Option String)
deriving DecidableEq, Repr

/-- Terminal outcome of a run of the ACL loop against a scripted server. -/
inductive AclOutcome where
  | ok (result : PathChangeAccessControlRecursiveResponse)
  | err (e : AclError)
  | outOfResponses
deriving DecidableEq, Repr

/-- A run of `setAccessControlRecursiveInternal`: the remote requests
issued (in order), the progress events delivered (in order), and the
terminal outcome. -/
structure AclRun where
  requests : List AclRequest
  events : List AccessControlChanges
  outcome : AclOutcome
deriving DecidableEq, Repr

/-- JavaScript truthiness of the continuation-token string in
`while (continuationToken && ...)`: `undefined` and `""` are falsy. -/
def tokenTruthy : Option String → Bool
  | none => false
  | some s => s ≠ ""

/-- `x || 0` on an optional numeric response field. -/
def orZero : Option Nat → Nat
  | none => 0
  | some n => n

/-- The per-batch counter update of the loop body (`+=` on the three
fields, missing fields counting as zero). -/
def addCounters (c : AclCounters) (r : AclBatchResponse) : AclCounters :=
  { failedChangesCount := c.failedChangesCount + orZero r.failureCount
    changedDirectoriesCount := c.changedDirectoriesCount + orZero r.directoriesSuccessful
    changedFilesCount := c.changedFilesCount + orZero r.filesSuccessful }

/-- `reachMaxBatches = options.maxBatches === undefined ? false :
batchCounter >= options.maxBatches`. -/
def reachMaxBatches (maxBatches : Option Int) (batchCounter : Nat) : Bool :=
  match maxBatches with
  | none => false
  | some m => (batchCounter : Int) ≥ m

/-- The `do/while` guard after a successful batch:
`continuationToken && !reachMaxBatches`, where `newCount` is the
already-incremented batch counter. -/
def loopContinue (opts : PathChangeAccessControlRecursiveOptions)
    (resp : AclBatchResponse) (newCount : Nat) : Bool :=
  tokenTruthy resp.continuation && !(reachMaxBatches opts.maxBatches newCount)

/-- The remote request issued by one loop iteration, carrying the current
continuation token. -/
def mkAclRequest (mode : PathSetAccessControlRecursiveMode)
    (opts : PathChangeAccessControlRecursiveOptions)
    (token : Option String) : AclRequest :=
  { mode := mode
    maxRecords := opts.batchSize
    continuation := token
    forceFlag := opts.continueOnFailure }

/-- The progress event built for one successful batch: this batch's
failures and counters, the aggregate so far (after this batch), and the
token returned by this batch. -/
def mkAclEvent (resp : AclBatchResponse) (aggregate : AclCounters) :
    AccessControlChanges :=
  { batchFailures := resp.failedEntries
    batchCounters :=
      { failedChangesCount := orZero resp.failureCount
        changedDirectoriesCount := orZero resp.directoriesSuccessful
        changedFilesCount := orZero resp.filesSuccessful }
    aggregateCounters := aggregate
    continuationToken := resp.continuation }

/-- The `do { ... } while (continuationToken && !reachMaxBatches)` loop of
`setAccessControlRecursiveInternal`.  One scripted outcome is consumed per
remote call; `token` is the current continuation token, `batchCounter` the
number of batches completed so far, `counters` the running aggregate. -/
def aclLoop (mode : PathSetAccessControlRecursiveMode)
    (opts : PathChangeAccessControlRecursiveOptions)
    (token : Option String) (batchCounter : Nat) (counters : AclCounters) :
    List AclRemoteOutcome → AclRun
  | [] => { requests := [], events := [], outcome := .outOfResponses }
  | outcome :: rest =>
    let req := mkAclRequest mode opts token
    match outcome with
    | .failure cause =>
      { requests := [req], events := []
        outcome := .err (.aclChangeFailed cause token) }
    | .success resp =>
      let newCount := batchCounter + 1
      let newToken := resp.continuation
      let newCounters := addCounters counters resp
      let ev : List AccessControlChanges :=
        if opts.onProgress then [mkAclEvent resp newCounters] else []
      if loopContinue opts resp newCount then
        let r := aclLoop mode opts newToken newCount newCounters rest
        { requests := req :: r.requests, events := ev ++ r.events
          outcome := r.outcome }
      else
        { requests := [req], events := ev
          outcome := .ok { counters := newCounters
                           continuationToken := newToken } }

/-- `options.maxBatches !== undefined && options.maxBatches < 1` (and the
same for `batchSize`). -/
def optionBelowOne : Option Int → Bool
  | none => false
  | some v => v < 1

/-- `DataLakePathClient.setAccessControlRecursiveInternal`: validate
`maxBatches` then `batchSize`, then run the batch loop starting from
`options.continuationToken` with zeroed counters. -/
def setAccessControlRecursiveInternal (mode : PathSetAccessControlRecursiveMode)
    (opts : PathChangeAccessControlRecursiveOptions)
    (server : List AclRemoteOutcome) : AclRun :=
  if optionBelowOne opts.maxBatches then
    { requests := [], events := []
      outcome := .err (.rangeError "Options maxBatches must be larger than 0.") }
  else if optionBelowOne opts.batchSize then
    { requests := [], events := []
      outcome := .err (.rangeError "Options batchSize must be larger than 0.") }
  else
    aclLoop mode opts opts.continuationToken 0
      ⟨0, 0, 0⟩ server

/-- `DataLakePathClient.setAccessControlRecursive` delegates with mode
"set". -/
def setAccessControlRecursive (opts : PathChangeAccessControlRecursiveOptions)
    (server : List AclRemoteOutcome) : AclRun :=
  setAccessControlRecursiveInternal .set opts server

/-- `DataLakePathClient.updateAccessControlRecursive` delegates with mode
"modify". -/
def updateAccessControlRecursive (opts : PathChangeAccessControlRecursiveOptions)
    (server : List AclRemoteOutcome) : AclRun :=
  setAccessControlRecursiveInternal .modify opts server

/-- `DataLakePathClient.removeAccessControlRecursive` delegates with mode
"remove". -/
def removeAccessControlRecursive (opts : PathChangeAccessControlRecursiveOptions)
    (server : List AclRemoteOutcome) : AclRun :=
  setAccessControlRecursiveInternal .remove opts server

/-! ## Chunked parallel upload
From `DataLakeFileClient.uploadSeekableInternal`
(src/unnamed/part_001, lines 1859-1988). -/

/-- The service limits imported from `./utils/constants` (that file is not
among the provided sources, so the limits are kept as parameters; the
upload logic only compares against them). -/
structure UploadLimits where
  FILE_MAX_SIZE_BYTES : Nat
  BLOCK_BLOB_MAX_BLOCKS : Nat
  FILE_UPLOAD_DEFAULT_CHUNK_SIZE : Nat
  FILE_UPLOAD_MAX_CHUNK_SIZE : Nat
  FILE_MAX_SINGLE_UPLOAD_THRESHOLD : Nat
  DEFAULT_HIGH_LEVEL_CONCURRENCY : Nat
deriving DecidableEq, Repr

/-- The `FileParallelUploadOptions` fields that steer the transfer.
Numeric options are `Option Int`: JavaScript numbers may be zero or
negative, and the source tests them with falsiness (`!options.chunkSize`),
so an explicit `0` behaves like an unset option. -/
structure FileParallelUploadOptions where
  chunkSize : Option Int := none
  maxConcurrency : Option Int := none
  singleUploadThreshold : Option Int := none
deriving DecidableEq, Repr

/-- One remote call issued by the upload engine. -/
inductive UploadCall where
  | create
  | append (offset length : Nat)
  | flush (position : Nat)
deriving DecidableEq, Repr

/-- Terminal outcome of an upload run: success returning the create
response (size-0 path), success returning the flush response, or a thrown
`RangeError` (tagged by the offending parameter). -/
inductive UploadOutcome where
  | okCreate
  | okFlush
  | rangeError (msg : String)
deriving DecidableEq, Repr

/-- A run of `uploadSeekableInternal`: the remote calls issued (append
tasks listed in submission order), the bound handed to the `Batch` worker
pool when one was constructed, and the outcome. -/
structure UploadRun where
  calls : List UploadCall
  pool : Option Nat
  outcome : UploadOutcome
deriving DecidableEq, Repr

/-- `Nat` ceiling division, `Math.ceil(n / d)` for non-negative exact
arithmetic. -/
def ceilDiv (n d : Nat) : Nat := (n + d - 1) / d

/-- Resolution of `options.chunkSize`: when falsy (unset or `0`), derive
`Math.ceil(size / BLOCK_BLOB_MAX_BLOCKS)` raised to
`FILE_UPLOAD_DEFAULT_CHUNK_SIZE` when below it. -/
def resolveChunkSize (L : UploadLimits) (size : Nat) : Option Int → Int
  | none => resolveChunkSizeDerived L size
  | some c => if c = 0 then resolveChunkSizeDerived L size else c
where
  /-- The derived default chunk size. -/
  resolveChunkSizeDerived (L : UploadLimits) (size : Nat) : Int :=
    let d : Nat := ceilDiv size L.BLOCK_BLOB_MAX_BLOCKS
    if (d : Int) < (L.FILE_UPLOAD_DEFAULT_CHUNK_SIZE : Int) then
      (L.FILE_UPLOAD_DEFAULT_CHUNK_SIZE : Int)
    else (d : Int)

/-- `if (!options.x) options.x = dflt` resolution for `maxConcurrency` and
`singleUploadThreshold`. -/
def resolveJsNum (opt : Option Int) (dflt : Nat) : Int :=
  match opt with
  | none => (dflt : Int)
  | some v => if v = 0 then (dflt : Int) else v

/-- The append tasks submitted to the worker pool, in submission order
(`i = 0 .. numBlocks-1`): chunk `i` starts at `chunkSize * i` and ends at
`start + chunkSize`, except the last chunk which ends at `size`. -/
def uploadChunkCalls (size C : Nat) : List UploadCall :=
  let numBlocks := (size - 1) / C + 1
  (List.range numBlocks).map fun i =>
    let start := C * i
    let e := if i = numBlocks - 1 then size else start + C
    UploadCall.append start (e - start)

/-- `DataLakeFileClient.uploadSeekableInternal`.  Faithful to the source
order of effects: the size guard precedes everything; the `create` call is
issued next; `size = 0` returns the create response; then chunk-size,
concurrency and single-upload-threshold resolution/validation; the
single-shot path for `size <= singleUploadThreshold`; and finally the
block-count guard, the pool of append tasks, and the closing `flush` at
position `size`. -/
def uploadSeekableInternal (L : UploadLimits) (size : Nat)
    (options : FileParallelUploadOptions) : UploadRun :=
  if L.FILE_MAX_SIZE_BYTES < size then
    { calls := [], pool := none, outcome := .rangeError "size" }
  else if size = 0 then
    { calls := [.create], pool := none, outcome := .okCreate }
  else
    let chunkSize := resolveChunkSize L size options.chunkSize
    if chunkSize < 1 ∨ (L.FILE_UPLOAD_MAX_CHUNK_SIZE : Int) < chunkSize then
      { calls := [.create], pool := none, outcome := .rangeError "chunkSize" }
    else
      let maxConcurrency :=
        resolveJsNum options.maxConcurrency L.DEFAULT_HIGH_LEVEL_CONCURRENCY
      if maxConcurrency ≤ 0 then
        { calls := [.create], pool := none, outcome := .rangeError "maxConcurrency" }
      else
        let sut :=
          resolveJsNum options.singleUploadThreshold L.FILE_MAX_SINGLE_UPLOAD_THRESHOLD
        if sut < 1 ∨ (L.FILE_MAX_SINGLE_UPLOAD_THRESHOLD : Int) < sut then
          { calls := [.create], pool := none
            outcome := .rangeError "singleUploadThreshold" }
        else if (size : Int) ≤ sut then
          { calls := [.create, .append 0 size, .flush size], pool := none
            outcome := .okFlush }
        else
          let C := chunkSize.toNat
          let numBlocks := (size - 1) / C + 1
          if L.BLOCK_BLOB_MAX_BLOCKS < numBlocks then
            { calls := [.create], pool := none, outcome := .rangeError "numBlocks" }
          else
            { calls := .create :: uploadChunkCalls size C ++ [.flush size]
              pool := some maxConcurrency.toNat
              outcome := .okFlush }

/-- Projection of a call trace onto its append calls, as
(offset, length) pairs in trace order. -/
def appendCalls : List UploadCall → List (Nat × Nat)
  | [] => []
  | .append o l :: rest => (o, l) :: appendCalls rest
  | .create :: rest => appendCalls rest
  | .flush _ :: rest => appendCalls rest

/-! ## Bounded worker pool (`Batch`)
The `Batch` class is imported from `./utils/Batch`, which is not among the
provided sources; only its construction and use appear in
src/unnamed/part_001 (lines 1949-1970). -/

/-- Modelled from the spec: the state of the bounded worker pool `Batch`
(`./utils/Batch`, not part of the provided sources).  Per spec section 4.3
the pool executes a finite queue of tasks with at most `concurrency` tasks
concurrently in flight, `concurrency` being supplied at construction;
`pendingOperations` counts queued-but-unstarted tasks and
`activeOperations` counts in-flight tasks. -/
structure BatchPoolState where
  concurrency : Nat
  pendingOperations : Nat
  activeOperations : Nat
deriving DecidableEq, Repr

/-- Modelled from the spec: one scheduling step of the `Batch` pool.  A
pending task may start only while fewer than `concurrency` tasks are
active; an active task may complete at any time. -/
inductive BatchPoolStep : BatchPoolState → BatchPoolState → Prop where
  | start (s : BatchPoolState)
      (hact : s.activeOperations < s.concurrency)
      (hpend : 0 < s.pendingOperations) :
      BatchPoolStep s
        ⟨s.concurrency, s.pendingOperations - 1, s.activeOperations + 1⟩
  | complete (s : BatchPoolState) (hact : 0 < s.activeOperations) :
      BatchPoolStep s
        ⟨s.concurrency, s.pendingOperations, s.activeOperations - 1⟩

/-- The pool state right after `new Batch(n)` and queueing `tasks`
operations, before `batch.do()` starts anything. -/
def batchPoolInit (n tasks : Nat) : BatchPoolState :=
  ⟨n, tasks, 0⟩

/-- States reachable during a `batch.do()` run that started from
`batchPoolInit n tasks`. -/
def BatchPoolReachable (n tasks : Nat) (s : BatchPoolState) : Prop :=
  Relation.ReflTransGen BatchPoolStep (batchPoolInit n tasks) s

/-! ## Continuation-token delete loop
From `DataLakePathClient.delete` (src/unnamed/part_001, lines 647-680). -/

/-- A response of the remote `pathContext.deleteMethod` call: the optional
continuation token plus a tag distinguishing the individual responses (so
that "returns the last response" is expressible). -/
structure PathDeleteResponse where
  continuation : Option String
  tag : Nat
deriving DecidableEq, Repr

/-- Terminal outcome of a run of the delete loop. -/
inductive DeleteOutcome where
  | ok (resp : PathDeleteResponse)
  | outOfResponses
deriving DecidableEq, Repr

/-- A run of the delete loop: the continuation tokens sent with each
remote call, in order, and the outcome. -/
structure DeleteRun where
  sentContinuations : List (Option String)
  outcome : DeleteOutcome
deriving DecidableEq, Repr

/-- The loop guard `continuation !== undefined && continuation !== ""`. -/
def deleteShouldContinue : Option String → Bool
  | none => false
  | some s => s ≠ ""

/-- The `do { ... } while (continuation !== undefined && continuation !== "")`
loop body of `DataLakePathClient.delete`: issue `deleteMethod` with the
current token, take the token from the response, repeat while it is
neither `undefined` nor `""`, and return the last response. -/
def deleteLoop (current : Option String) :
    List PathDeleteResponse → DeleteRun
  | [] => { sentContinuations := [], outcome := .outOfResponses }
  | resp :: rest =>
    if deleteShouldContinue resp.continuation then
      let r := deleteLoop resp.continuation rest
      { sentContinuations := current :: r.sentContinuations
        outcome := r.outcome }
    else
      { sentContinuations := [current], outcome := .ok resp }

/-- `DataLakePathClient.delete`: the local `continuation` starts out
`undefined` (it is a fresh `let`, not taken from the options). -/
def pathDelete (server : List PathDeleteResponse) : DeleteRun :=
  deleteLoop none server

/-! ## Expected traces of the ACL loop -/

/-- A default batch response, used only as the `List.getD` fallback in
statements whose hypotheses keep all indices in bounds. -/
def dfltResp : AclBatchResponse :=
  { continuation := none, failureCount := none, directoriesSuccessful := none
    filesSuccessful := none, failedEntries := [] }

/-- The requests the loop issues while consuming the given successful
responses: the first carries `token`, each later one the token returned by
the previous response. -/
def expectedRequests (mode : PathSetAccessControlRecursiveMode)
    (opts : PathChangeAccessControlRecursiveOptions) (token : Option String) :
    List AclBatchResponse → List AclRequest
  | [] => []
  | r :: rs => mkAclRequest mode opts token :: expectedRequests mode opts r.continuation rs

/-- The progress events the loop delivers while consuming the given
successful responses, starting from aggregate `c0`. -/
def expectedEvents (c0 : AclCounters) :
    List AclBatchResponse → List AccessControlChanges
  | [] => []
  | r :: rs =>
    mkAclEvent r (addCounters c0 r) :: expectedEvents (addCounters c0 r) rs

/-- Aggregation of batch counters over a list of responses. -/
def foldCounters (c : AclCounters) (l : List AclBatchResponse) : AclCounters :=
  l.foldl addCounters c

/-- The continuation token as of the last of the given successful batches
(`token` itself when there was none). -/
def lastToken (token : Option String) : List AclBatchResponse → Option String
  | [] => token
  | r :: rs => lastToken r.continuation rs

/-- Characterization of a terminating run of the batch loop: if the guard
holds after each of the first `k` responses and fails after response
`k + 1` (0-based index `k`), the loop consumes exactly the first `k + 1`
responses and returns the aggregate counters and the last token. -/
theorem aclLoop_ok_char (mode : PathSetAccessControlRecursiveMode)
    (opts : PathChangeAccessControlRecursiveOptions)
    (resps : List AclBatchResponse) :
    ∀ (k b0 : Nat) (token : Option String) (c0 : AclCounters),
      k < resps.length →
      (∀ j, j < k → loopContinue opts (resps.getD j dfltResp) (b0 + j + 1) = true) →
      loopContinue opts (resps.getD k dfltResp) (b0 + k + 1) = false →
      aclLoop mode opts token b0 c0 (resps.map AclRemoteOutcome.success) =
        { requests := expectedRequests mode opts token (resps.take (k + 1))
          events :=
            if opts.onProgress then expectedEvents c0 (resps.take (k + 1)) else []
          outcome := AclOutcome.ok
            { counters := foldCounters c0 (resps.take (k + 1))
              continuationToken := (resps.getD k dfltResp).continuation } } := by
  induction resps with
  | nil =>
    intro k _ _ _ hk _ _
    exact absurd hk (Nat.not_lt_zero k)
  | cons r rest ih =>
    intro k b0 token c0 hk hcont hstop
    cases k with
    | zero =>
      simp only [List.getD_cons_zero] at hstop
      simp only [List.map_cons, aclLoop, hstop, Bool.false_eq_true, if_false,
        List.take_succ_cons, List.take_zero, expectedRequests, expectedEvents,
        foldCounters, List.foldl_cons, List.foldl_nil, List.getD_cons_zero]
    | succ k =>
      have h0 : loopContinue opts r (b0 + 1) = true := by
        have h := hcont 0 (Nat.succ_pos k)
        simpa using h
      have hk' : k < rest.length := Nat.lt_of_succ_lt_succ (by simpa using hk)
      have hcont' : ∀ j, j < k →
          loopContinue opts (rest.getD j dfltResp) ((b0 + 1) + j + 1) = true := by
        intro j hj
        have h := hcont (j + 1) (Nat.succ_lt_succ hj)
        simp only [List.getD_cons_succ] at h
        have : b0 + (j + 1) + 1 = (b0 + 1) + j + 1 := by omega
        rwa [this] at h
      have hstop' :
          loopContinue opts (rest.getD k dfltResp) ((b0 + 1) + k + 1) = false := by
        have h := hstop
        simp only [List.getD_cons_succ] at h
        have : b0 + (k + 1) + 1 = (b0 + 1) + k + 1 := by omega
        rwa [this] at h
      have hrec := ih k (b0 + 1) r.continuation (addCounters c0 r) hk' hcont' hstop'
      simp only [List.map_cons, aclLoop, h0, if_true, hrec, List.take_succ_cons,
        expectedRequests, expectedEvents, foldCounters, List.foldl_cons,
        List.getD_cons_succ]
      by_cases hp : opts.onProgress <;> simp [hp]

/-- Characterization of a failing run of the batch loop: if the guard
holds after each of the scripted successful responses and the next remote
call throws, the loop issues exactly one request per successful response
plus the failing request, delivers the progress events of the successful
batches, and surfaces `DataLakeAclChangeFailedError` wrapping the cause
and the token of the last successful batch. -/
theorem aclLoop_err_char (mode : PathSetAccessControlRecursiveMode)
    (opts : PathChangeAccessControlRecursiveOptions) (cause : String)
    (tail : List AclRemoteOutcome) (resps : List AclBatchResponse) :
    ∀ (b0 : Nat) (token : Option String) (c0 : AclCounters),
      (∀ j, j < resps.length →
        loopContinue opts (resps.getD j dfltResp) (b0 + j + 1) = true) →
      aclLoop mode opts token b0 c0
          (resps.map AclRemoteOutcome.success ++
            AclRemoteOutcome.failure cause :: tail) =
        { requests := expectedRequests mode opts token resps ++
            [mkAclRequest mode opts (lastToken token resps)]
          events := if opts.onProgress then expectedEvents c0 resps else []
          outcome := AclOutcome.err
            (AclError.aclChangeFailed cause (lastToken token resps)) } := by
  induction resps with
  | nil =>
    intro b0 token c0 _
    simp only [List.map_nil, List.nil_append, aclLoop, expectedRequests,
      expectedEvents, lastToken, List.nil_append]
    by_cases hp : opts.onProgress <;> simp [hp]
  | cons r rest ih =>
    intro b0 token c0 hcont
    have h0 : loopContinue opts r (b0 + 1) = true := by
      have h := hcont 0 (Nat.succ_pos rest.length)
      simpa using h
    have hcont' : ∀ j, j < rest.length →
        loopContinue opts (rest.getD j dfltResp) ((b0 + 1) + j + 1) = true := by
      intro j hj
      have h := hcont (j + 1) (Nat.succ_lt_succ hj)
      simp only [List.getD_cons_succ] at h
      have : b0 + (j + 1) + 1 = (b0 + 1) + j + 1 := by omega
      rwa [this] at h
    have hrec := ih (b0 + 1) r.continuation (addCounters c0 r) hcont'
    simp only [List.map_cons, List.cons_append, aclLoop, h0, if_true,
      List.append_eq, hrec, expectedRequests, expectedEvents, lastToken]
    by_cases hp : opts.onProgress <;> simp [hp]

/-- The loop issues one request per consumed response. -/
theorem expectedRequests_length (mode : PathSetAccessControlRecursiveMode)
    (opts : PathChangeAccessControlRecursiveOptions) :
    ∀ (l : List AclBatchResponse) (token : Option String),
      (expectedRequests mode opts token l).length = l.length := by
  intro l
  induction l with
  | nil => intro token; rfl
  | cons r rs ih => intro token; simp [expectedRequests, ih]

/-- Aggregation unfolds to per-field sums over the consumed responses. -/
theorem foldCounters_spec (l : List AclBatchResponse) :
    ∀ c : AclCounters,
      foldCounters c l =
        { failedChangesCount :=
            c.failedChangesCount + (l.map fun r => orZero r.failureCount).sum
          changedDirectoriesCount :=
            c.changedDirectoriesCount +
              (l.map fun r => orZero r.directoriesSuccessful).sum
          changedFilesCount :=
            c.changedFilesCount + (l.map fun r => orZero r.filesSuccessful).sum } := by
  induction l with
  | nil => intro c; simp [foldCounters]
  | cons r rs ih =>
    intro c
    rw [foldCounters, List.foldl_cons, ← foldCounters, ih (addCounters c r)]
    simp only [addCounters, List.map_cons, List.sum_cons, AclCounters.mk.injEq]
    refine ⟨by omega, by omega, by omega⟩

/-- Prefix sums over a response list are monotone in the prefix length. -/
theorem sum_map_take_mono (l : List AclBatchResponse)
    (f : AclBatchResponse → Nat) (i j : Nat) (hij : i ≤ j) :
    ((l.take i).map f).sum ≤ ((l.take j).map f).sum := by
  have hj : i + (j - i) = j := by omega
  calc ((l.take i).map f).sum
      ≤ ((l.take i).map f).sum + (((l.drop i).take (j - i)).map f).sum :=
        Nat.le_add_right _ _
    _ = ((l.take j).map f).sum := by
        rw [← List.sum_append, ← List.map_append, ← List.take_add, hj]

/-- `reachMaxBatches` with a supplied bound, read arithmetically. -/
theorem reachMax_some_true {m : Int} {n : Nat}
    (h : reachMaxBatches (some m) n = true) : m ≤ (n : Int) := by
  simpa [reachMaxBatches, ge_iff_le] using h

/-- `reachMaxBatches` with a supplied bound, read arithmetically. -/
theorem reachMax_some_false {m : Int} {n : Nat}
    (h : reachMaxBatches (some m) n = false) : (n : Int) < m := by
  simpa [reachMaxBatches, ge_iff_le] using h

/-- C1: against any server whose first `k + 1` responses succeed, where the
loop guard holds after the first `k` responses and fails after response
`k + 1` (token falsy there, or the batch counter having reached
`maxBatches`), `setAccessControlRecursiveInternal` issues exactly `k + 1`
remote calls and returns the `k + 1`-st response's continuation token as
the result's `continuationToken` — so it stops the moment a token is
empty/absent (returning that falsy token), and when it stops with a truthy
token under a supplied `maxBatches = m`, the batch count `k + 1` equals
`m` exactly and the non-empty token is returned. -/
theorem acl_recursive_loop_stops_on_token_or_maxBatches
    (mode : PathSetAccessControlRecursiveMode)
    (opts : PathChangeAccessControlRecursiveOptions)
    (resps : List AclBatchResponse) (k : Nat)
    (hval : optionBelowOne opts.maxBatches = false)
    (hbs : optionBelowOne opts.batchSize = false)
    (hk : k < resps.length)
    (hcont : ∀ j, j < k → loopContinue opts (resps.getD j dfltResp) (j + 1) = true)
    (hstop : loopContinue opts (resps.getD k dfltResp) (k + 1) = false) :
    (setAccessControlRecursiveInternal mode opts
        (resps.map AclRemoteOutcome.success)).requests.length = k + 1 ∧
    (setAccessControlRecursiveInternal mode opts
        (resps.map AclRemoteOutcome.success)).outcome =
      AclOutcome.ok
        { counters := foldCounters ⟨0, 0, 0⟩ (resps.take (k + 1))
          continuationToken := (resps.getD k dfltResp).continuation } ∧
    (∀ m : Int, opts.maxBatches = some m →
      tokenTruthy (resps.getD k dfltResp).continuation = true →
      (k : Int) + 1 = m) := by
  have hchar := aclLoop_ok_char mode opts resps k 0 opts.continuationToken
    ⟨0, 0, 0⟩ hk (by intro j hj; simpa using hcont j hj) (by simpa using hstop)
  have hrun : setAccessControlRecursiveInternal mode opts
      (resps.map AclRemoteOutcome.success) =
      aclLoop mode opts opts.continuationToken 0 ⟨0, 0, 0⟩
        (resps.map AclRemoteOutcome.success) := by
    simp [setAccessControlRecursiveInternal, hval, hbs]
  refine ⟨?_, ?_, ?_⟩
  · rw [hrun, hchar]
    simp [expectedRequests_length, List.length_take, Nat.min_eq_left hk]
  · rw [hrun, hchar]
  · intro m hm htok
    have hreach : reachMaxBatches opts.maxBatches (k + 1) = true := by
      cases hb : reachMaxBatches opts.maxBatches (k + 1) with
      | false =>
        exfalso
        unfold loopContinue at hstop
        rw [htok, hb] at hstop
        simp at hstop
      | true => rfl
    rw [hm] at hreach
    have hub : m ≤ (k : Int) + 1 := by
      have := reachMax_some_true hreach
      omega
    have hlb : (k : Int) + 1 ≤ m := by
      cases k with
      | zero =>
        have : ¬ ((m : Int) < 1) := by
          intro hlt
          rw [hm] at hval
          simp [optionBelowOne, hlt] at hval
        omega
      | succ k' =>
        have h := hcont k' (Nat.lt_succ_self k')
        have hfr : reachMaxBatches opts.maxBatches (k' + 1) = false := by
          cases hb : reachMaxBatches opts.maxBatches (k' + 1) with
          | false => rfl
          | true => simp [loopContinue, hb] at h
        rw [hm] at hfr
        have := reachMax_some_false hfr
        push_cast
        omega
    omega

/-- The server of the spec's example: tokens "A" then "". -/
def demoAclResps : List AclBatchResponse :=
  [{ continuation := some "A", failureCount := some 1
     directoriesSuccessful := some 2, filesSuccessful := some 3
     failedEntries := [] },
   { continuation := some "", failureCount := none
     directoriesSuccessful := some 4, filesSuccessful := none
     failedEntries := [] }]

/-- Witness for C1: an ACL set request against a server returning
continuation tokens "A" then "" makes exactly 2 remote calls, and the
result's token is the final falsy token. -/
theorem acl_recursive_loop_stops_on_token_or_maxBatches_witness :
    (setAccessControlRecursiveInternal PathSetAccessControlRecursiveMode.set
        {} (demoAclResps.map AclRemoteOutcome.success)).requests.length = 2 ∧
    (setAccessControlRecursiveInternal PathSetAccessControlRecursiveMode.set
        {} (demoAclResps.map AclRemoteOutcome.success)).outcome =
      AclOutcome.ok
        { counters := foldCounters ⟨0, 0, 0⟩ (demoAclResps.take 2)
          continuationToken := (demoAclResps.getD 1 dfltResp).continuation } := by
  have h := acl_recursive_loop_stops_on_token_or_maxBatches
    PathSetAccessControlRecursiveMode.set {} demoAclResps 1
    (by decide) (by decide) (by decide) (by decide) (by decide)
  exact ⟨h.1, h.2.1⟩

/-- C2: under the terminating-run hypotheses of C1, the returned counters
are exactly the sums, over the consumed batches in issue order, of
`failureCount`, `directoriesSuccessful` and `filesSuccessful` (missing
fields counting as 0, via `orZero`); the counters are `Nat`-valued, hence
non-negative, and the aggregate after a longer prefix of batches dominates
the aggregate after any shorter prefix. -/
theorem acl_recursive_counters_aggregate
    (mode : PathSetAccessControlRecursiveMode)
    (opts : PathChangeAccessControlRecursiveOptions)
    (resps : List AclBatchResponse) (k : Nat)
    (hval : optionBelowOne opts.maxBatches = false)
    (hbs : optionBelowOne opts.batchSize = false)
    (hk : k < resps.length)
    (hcont : ∀ j, j < k → loopContinue opts (resps.getD j dfltResp) (j + 1) = true)
    (hstop : loopContinue opts (resps.getD k dfltResp) (k + 1) = false) :
    (setAccessControlRecursiveInternal mode opts
        (resps.map AclRemoteOutcome.success)).outcome =
      AclOutcome.ok
        { counters :=
            { failedChangesCount :=
                ((resps.take (k + 1)).map fun r => orZero r.failureCount).sum
              changedDirectoriesCount :=
                ((resps.take (k + 1)).map fun r => orZero r.directoriesSuccessful).sum
              changedFilesCount :=
                ((resps.take (k + 1)).map fun r => orZero r.filesSuccessful).sum }
          continuationToken := (resps.getD k dfltResp).continuation } ∧
    (∀ i j, i ≤ j →
      ((resps.take i).map fun r => orZero r.failureCount).sum ≤
        ((resps.take j).map fun r => orZero r.failureCount).sum ∧
      ((resps.take i).map fun r => orZero r.directoriesSuccessful).sum ≤
        ((resps.take j).map fun r => orZero r.directoriesSuccessful).sum ∧
      ((resps.take i).map fun r => orZero r.filesSuccessful).sum ≤
        ((resps.take j).map fun r => orZero r.filesSuccessful).sum) := by
  have hchar := aclLoop_ok_char mode opts resps k 0 opts.continuationToken
    ⟨0, 0, 0⟩ hk (by intro j hj; simpa using hcont j hj) (by simpa using hstop)
  have hrun : setAccessControlRecursiveInternal mode opts
      (resps.map AclRemoteOutcome.success) =
      aclLoop mode opts opts.continuationToken 0 ⟨0, 0, 0⟩
        (resps.map AclRemoteOutcome.success) := by
    simp [setAccessControlRecursiveInternal, hval, hbs]
  refine ⟨?_, ?_⟩
  · rw [hrun, hchar]
    simp [foldCounters_spec]
  · intro i j hij
    exact ⟨sum_map_take_mono resps _ i j hij, sum_map_take_mono resps _ i j hij,
      sum_map_take_mono resps _ i j hij⟩

/-- Witness for C2: on the two-batch demo server the aggregate counters
are the per-field sums (1, 2 + 4, 3). -/
theorem acl_recursive_counters_aggregate_witness :
    (setAccessControlRecursiveInternal PathSetAccessControlRecursiveMode.modify
        {} (demoAclResps.map AclRemoteOutcome.success)).outcome =
      AclOutcome.ok
        { counters := { failedChangesCount := 1
                        changedDirectoriesCount := 6
                        changedFilesCount := 3 }
          continuationToken := some "" } := by
  have h := acl_recursive_counters_aggregate
    PathSetAccessControlRecursiveMode.modify {} demoAclResps 1
    (by decide) (by decide) (by decide) (by decide) (by decide)
  have h1 := h.1
  simpa using h1

/-- C5: whenever `batchSize` is supplied with a value below 1 (e.g. 0) or
`maxBatches` is supplied with a value below 1, the operation throws a
`RangeError` with zero remote calls issued (and zero progress events
delivered).  The throw happens in the synchronous prologue of the source
method, before any interaction with `pathContext`. -/
theorem acl_recursive_validates_batch_options
    (mode : PathSetAccessControlRecursiveMode)
    (opts : PathChangeAccessControlRecursiveOptions)
    (server : List AclRemoteOutcome)
    (h : optionBelowOne opts.batchSize = true ∨
      optionBelowOne opts.maxBatches = true) :
    (setAccessControlRecursiveInternal mode opts server).requests = [] ∧
    (setAccessControlRecursiveInternal mode opts server).events = [] ∧
    ∃ msg, (setAccessControlRecursiveInternal mode opts server).outcome =
      AclOutcome.err (AclError.rangeError msg) := by
  cases hm : optionBelowOne opts.maxBatches with
  | true =>
    refine ⟨?_, ?_, ?_⟩ <;> simp [setAccessControlRecursiveInternal, hm]
  | false =>
    have hb : optionBelowOne opts.batchSize = true := by
      rcases h with hb | hm'
      · exact hb
      · rw [hm'] at hm; exact absurd hm (by simp)
    refine ⟨?_, ?_, ?_⟩ <;> simp [setAccessControlRecursiveInternal, hm, hb]

/-- Witness for C5: `batchSize = 0` is rejected with zero remote calls. -/
theorem acl_recursive_validates_batch_options_witness :
    (setAccessControlRecursiveInternal PathSetAccessControlRecursiveMode.set
        { batchSize := some 0 }
        [AclRemoteOutcome.failure "never reached"]).requests = [] ∧
    (∃ msg, (setAccessControlRecursiveInternal PathSetAccessControlRecursiveMode.set
        { batchSize := some 0 }
        [AclRemoteOutcome.failure "never reached"]).outcome =
      AclOutcome.err (AclError.rangeError msg)) := by
  have h := acl_recursive_validates_batch_options
    PathSetAccessControlRecursiveMode.set { batchSize := some 0 }
    [AclRemoteOutcome.failure "never reached"] (Or.inl (by decide))
  exact ⟨h.1, h.2.2⟩

/-- C6: if the loop guard held after each of the scripted successful
batches and the next remote call throws `cause`, the run aborts
immediately — exactly one request per successful batch plus the failing
request is issued, regardless of anything the server could have answered
later — and the outcome is a `DataLakeAclChangeFailedError` wrapping
`cause` and carrying the continuation token as of the last successful
batch (the caller-supplied `options.continuationToken` when the very first
batch failed).  Progress already delivered for the prior successful
batches (with their aggregate counters) stands: the event list is exactly
the events of those batches, not rolled back. -/
theorem acl_recursive_failure_aborts_and_wraps
    (mode : PathSetAccessControlRecursiveMode)
    (opts : PathChangeAccessControlRecursiveOptions)
    (resps : List AclBatchResponse) (cause : String)
    (tail : List AclRemoteOutcome)
    (hval : optionBelowOne opts.maxBatches = false)
    (hbs : optionBelowOne opts.batchSize = false)
    (hcont : ∀ j, j < resps.length →
      loopContinue opts (resps.getD j dfltResp) (j + 1) = true) :
    (setAccessControlRecursiveInternal mode opts
        (resps.map AclRemoteOutcome.success ++
          AclRemoteOutcome.failure cause :: tail)).outcome =
      AclOutcome.err
        (AclError.aclChangeFailed cause (lastToken opts.continuationToken resps)) ∧
    (setAccessControlRecursiveInternal mode opts
        (resps.map AclRemoteOutcome.success ++
          AclRemoteOutcome.failure cause :: tail)).requests.length =
      resps.length + 1 ∧
    (setAccessControlRecursiveInternal mode opts
        (resps.map AclRemoteOutcome.success ++
          AclRemoteOutcome.failure cause :: tail)).events =
      (if opts.onProgress then expectedEvents ⟨0, 0, 0⟩ resps else []) := by
  have hchar := aclLoop_err_char mode opts cause tail resps 0
    opts.continuationToken ⟨0, 0, 0⟩ (by intro j hj; simpa using hcont j hj)
  have hrun : setAccessControlRecursiveInternal mode opts
      (resps.map AclRemoteOutcome.success ++
        AclRemoteOutcome.failure cause :: tail) =
      aclLoop mode opts opts.continuationToken 0 ⟨0, 0, 0⟩
        (resps.map AclRemoteOutcome.success ++
          AclRemoteOutcome.failure cause :: tail) := by
    simp [setAccessControlRecursiveInternal, hval, hbs]
  refine ⟨?_, ?_, ?_⟩
  · rw [hrun, hchar]
  · rw [hrun, hchar]
    simp [expectedRequests_length]
  · rw [hrun, hchar]

/-- Witness for C6: one successful batch with token "A", then a transport
failure: 2 remote calls total, and the thrown error wraps the cause and
carries token "A". -/
theorem acl_recursive_failure_aborts_and_wraps_witness :
    (setAccessControlRecursiveInternal PathSetAccessControlRecursiveMode.set
        {} ((demoAclResps.take 1).map AclRemoteOutcome.success ++
          AclRemoteOutcome.failure "boom" ::
            [AclRemoteOutcome.failure "later"])).outcome =
      AclOutcome.err (AclError.aclChangeFailed "boom" (some "A")) ∧
    (setAccessControlRecursiveInternal PathSetAccessControlRecursiveMode.set
        {} ((demoAclResps.take 1).map AclRemoteOutcome.success ++
          AclRemoteOutcome.failure "boom" ::
            [AclRemoteOutcome.failure "later"])).requests.length = 2 := by
  have h := acl_recursive_failure_aborts_and_wraps
    PathSetAccessControlRecursiveMode.set {} (demoAclResps.take 1) "boom"
    [AclRemoteOutcome.failure "later"] (by decide) (by decide) (by decide)
  exact ⟨by simpa using h.1, by simpa using h.2.1⟩

/-- Default delete response, used only as the `List.getD` fallback. -/
def dfltDelResp : PathDeleteResponse :=
  { continuation := none, tag := 0 }

/-- Characterization of the delete loop: if the first `k` responses carry
a continuation that is neither `undefined` nor `""` and response `k + 1`
does not, the loop makes exactly `k + 1` calls, sending `current` first
and then each response's token, and returns response `k + 1`. -/
theorem deleteLoop_char (resps : List PathDeleteResponse) :
    ∀ (k : Nat) (current : Option String),
      k < resps.length →
      (∀ j, j < k →
        deleteShouldContinue (resps.getD j dfltDelResp).continuation = true) →
      deleteShouldContinue (resps.getD k dfltDelResp).continuation = false →
      deleteLoop current resps =
        { sentContinuations :=
            current :: ((resps.take k).map fun r => r.continuation)
          outcome := DeleteOutcome.ok (resps.getD k dfltDelResp) } := by
  induction resps with
  | nil =>
    intro k _ hk _ _
    exact absurd hk (Nat.not_lt_zero k)
  | cons r rest ih =>
    intro k current hk hcont hstop
    cases k with
    | zero =>
      simp only [List.getD_cons_zero] at hstop
      simp [deleteLoop, hstop]
    | succ k =>
      have h0 : deleteShouldContinue r.continuation = true := by
        have h := hcont 0 (Nat.succ_pos k)
        simpa using h
      have hk' : k < rest.length := Nat.lt_of_succ_lt_succ (by simpa using hk)
      have hcont' : ∀ j, j < k →
          deleteShouldContinue (rest.getD j dfltDelResp).continuation = true := by
        intro j hj
        have h := hcont (j + 1) (Nat.succ_lt_succ hj)
        simpa using h
      have hstop' :
          deleteShouldContinue (rest.getD k dfltDelResp).continuation = false := by
        simpa using hstop
      have hrec := ih k r.continuation hk' hcont' hstop'
      simp [deleteLoop, h0, hrec]

/-- C10: `DataLakePathClient.delete` is itself a continuation-token loop:
starting from an `undefined` token, it repeatedly issues the remote
`deleteMethod` call, feeding each response's continuation token into the
next call, until the returned token is `undefined` or `""`, and returns
the last response — so when the first `k` responses carry a non-empty
token, a single `delete()` performs `k + 1` remote calls. -/
theorem path_delete_continuation_loop
    (resps : List PathDeleteResponse) (k : Nat)
    (hk : k < resps.length)
    (hcont : ∀ j, j < k →
      deleteShouldContinue (resps.getD j dfltDelResp).continuation = true)
    (hstop : deleteShouldContinue (resps.getD k dfltDelResp).continuation = false) :
    (pathDelete resps).sentContinuations =
      none :: ((resps.take k).map fun r => r.continuation) ∧
    (pathDelete resps).sentContinuations.length = k + 1 ∧
    (pathDelete resps).outcome = DeleteOutcome.ok (resps.getD k dfltDelResp) := by
  have h := deleteLoop_char resps k none hk hcont hstop
  rw [pathDelete, h]
  refine ⟨rfl, ?_, rfl⟩
  simp [List.length_take, Nat.min_eq_left (Nat.le_of_lt hk)]

/-- Witness for C10: a directory large enough that the service answers
with tokens "X", "Y" and then none: one `delete()` makes 3 remote calls,
feeds `undefined`, "X", "Y" into them, and returns the third response. -/
theorem path_delete_continuation_loop_witness :
    (pathDelete [⟨some "X", 10⟩, ⟨some "Y", 20⟩, ⟨none, 30⟩]).sentContinuations =
      [none, some "X", some "Y"] ∧
    (pathDelete [⟨some "X", 10⟩, ⟨some "Y", 20⟩, ⟨none, 30⟩]).outcome =
      DeleteOutcome.ok ⟨none, 30⟩ := by
  have h := path_delete_continuation_loop
    [⟨some "X", 10⟩, ⟨some "Y", 20⟩, ⟨none, 30⟩] 2
    (by decide) (by decide) (by decide)
  exact ⟨by simpa using h.1, by simpa using h.2.2⟩

/-! ## Upload engine lemmas and claims -/

/-- Realistic service limits (values as shipped in the SDK's constants:
50000 blocks, 8 MiB default chunk, 100 MiB max chunk and single-shot
threshold, concurrency 5), used for concrete instances. -/
def demoLimits : UploadLimits :=
  { FILE_MAX_SIZE_BYTES := 5242880000000
    BLOCK_BLOB_MAX_BLOCKS := 50000
    FILE_UPLOAD_DEFAULT_CHUNK_SIZE := 8388608
    FILE_UPLOAD_MAX_CHUNK_SIZE := 104857600
    FILE_MAX_SINGLE_UPLOAD_THRESHOLD := 104857600
    DEFAULT_HIGH_LEVEL_CONCURRENCY := 5 }

/-- C8: an upload of size 0 issues exactly one `create` call — no append,
no flush — and returns the create response.  (The size guard passes
trivially, and the source returns the awaited `createRes` before any other
work.) -/
theorem upload_zero_size_create_only (L : UploadLimits)
    (options : FileParallelUploadOptions) :
    uploadSeekableInternal L 0 options =
      { calls := [UploadCall.create], pool := none
        outcome := UploadOutcome.okCreate } := by
  simp [uploadSeekableInternal]

/-- C7: when the size is positive, at most the resolved
`singleUploadThreshold`, and the resolved parameters pass validation, the
upload performs exactly one whole-payload append (offset 0, length
`size`), then one flush at position `size`, with no worker pool
constructed. -/
theorem upload_single_shot (L : UploadLimits) (size : Nat)
    (options : FileParallelUploadOptions)
    (hpos : 0 < size)
    (hmax : size ≤ L.FILE_MAX_SIZE_BYTES)
    (hcs1 : 1 ≤ resolveChunkSize L size options.chunkSize)
    (hcs2 : resolveChunkSize L size options.chunkSize ≤
      (L.FILE_UPLOAD_MAX_CHUNK_SIZE : Int))
    (hmc : 0 < resolveJsNum options.maxConcurrency L.DEFAULT_HIGH_LEVEL_CONCURRENCY)
    (hsut1 : 1 ≤ resolveJsNum options.singleUploadThreshold
      L.FILE_MAX_SINGLE_UPLOAD_THRESHOLD)
    (hsut2 : resolveJsNum options.singleUploadThreshold
        L.FILE_MAX_SINGLE_UPLOAD_THRESHOLD ≤
      (L.FILE_MAX_SINGLE_UPLOAD_THRESHOLD : Int))
    (hsmall : (size : Int) ≤ resolveJsNum options.singleUploadThreshold
      L.FILE_MAX_SINGLE_UPLOAD_THRESHOLD) :
    uploadSeekableInternal L size options =
      { calls := [UploadCall.create, UploadCall.append 0 size,
          UploadCall.flush size]
        pool := none, outcome := UploadOutcome.okFlush } := by
  simp only [uploadSeekableInternal]
  rw [if_neg (Nat.not_lt.mpr hmax), if_neg (by omega : ¬ size = 0),
    if_neg (by push_neg; exact ⟨by omega, by omega⟩),
    if_neg (by omega : ¬ resolveJsNum options.maxConcurrency
      L.DEFAULT_HIGH_LEVEL_CONCURRENCY ≤ 0),
    if_neg (by push_neg; exact ⟨by omega, by omega⟩),
    if_pos hsmall]

/-- Witness for C7: uploading 1000 bytes with default options under the
realistic limits does create, one append of the whole kilobyte, and one
flush at 1000. -/
theorem upload_single_shot_witness :
    uploadSeekableInternal demoLimits 1000 {} =
      { calls := [UploadCall.create, UploadCall.append 0 1000,
          UploadCall.flush 1000]
        pool := none, outcome := UploadOutcome.okFlush } :=
  upload_single_shot demoLimits 1000 {} (by decide) (by decide) (by decide)
    (by decide) (by decide) (by decide) (by decide) (by decide)

/-- `appendCalls` distributes over concatenation. -/
theorem appendCalls_append (l1 l2 : List UploadCall) :
    appendCalls (l1 ++ l2) = appendCalls l1 ++ appendCalls l2 := by
  induction l1 with
  | nil => rfl
  | cons c rest ih => cases c <;> simp [appendCalls, ih]

/-- `appendCalls` of a list of append calls recovers the pairs. -/
theorem appendCalls_map_append {α : Type} (l : List α) (f g : α → Nat) :
    appendCalls (l.map fun i => UploadCall.append (f i) (g i)) =
      l.map fun i => (f i, g i) := by
  induction l with
  | nil => rfl
  | cons a rest ih => simp [appendCalls, ih]

/-- The chunked path of the upload: when all validations pass and the size
exceeds the resolved single-shot threshold, the run is one `create`, the
chunk appends, one `flush size`, with the worker pool bounded by the
resolved concurrency. -/
theorem upload_chunked_run (L : UploadLimits) (size : Nat)
    (options : FileParallelUploadOptions)
    (hpos : 0 < size)
    (hmax : size ≤ L.FILE_MAX_SIZE_BYTES)
    (hcs1 : 1 ≤ resolveChunkSize L size options.chunkSize)
    (hcs2 : resolveChunkSize L size options.chunkSize ≤
      (L.FILE_UPLOAD_MAX_CHUNK_SIZE : Int))
    (hmc : 0 < resolveJsNum options.maxConcurrency L.DEFAULT_HIGH_LEVEL_CONCURRENCY)
    (hsut1 : 1 ≤ resolveJsNum options.singleUploadThreshold
      L.FILE_MAX_SINGLE_UPLOAD_THRESHOLD)
    (hsut2 : resolveJsNum options.singleUploadThreshold
        L.FILE_MAX_SINGLE_UPLOAD_THRESHOLD ≤
      (L.FILE_MAX_SINGLE_UPLOAD_THRESHOLD : Int))
    (hbig : resolveJsNum options.singleUploadThreshold
        L.FILE_MAX_SINGLE_UPLOAD_THRESHOLD < (size : Int))
    (hnb : (size - 1) / (resolveChunkSize L size options.chunkSize).toNat + 1 ≤
      L.BLOCK_BLOB_MAX_BLOCKS) :
    uploadSeekableInternal L size options =
      { calls := UploadCall.create ::
          uploadChunkCalls size (resolveChunkSize L size options.chunkSize).toNat ++
          [UploadCall.flush size]
        pool := some (resolveJsNum options.maxConcurrency
          L.DEFAULT_HIGH_LEVEL_CONCURRENCY).toNat
        outcome := UploadOutcome.okFlush } := by
  simp only [uploadSeekableInternal]
  rw [if_neg (Nat.not_lt.mpr hmax), if_neg (by omega : ¬ size = 0),
    if_neg (by push_neg; exact ⟨by omega, by omega⟩),
    if_neg (by omega : ¬ resolveJsNum options.maxConcurrency
      L.DEFAULT_HIGH_LEVEL_CONCURRENCY ≤ 0),
    if_neg (by push_neg; exact ⟨by omega, by omega⟩),
    if_neg (by omega : ¬ (size : Int) ≤ resolveJsNum options.singleUploadThreshold
      L.FILE_MAX_SINGLE_UPLOAD_THRESHOLD),
    if_neg (Nat.not_lt.mpr hnb)]

/-- C3: in the chunked path with resolved chunk size `C`, the number of
append calls equals `ceil(size / C)`; chunk `i` starts at offset `C * i`
(so the chunks are contiguous, non-overlapping, and start at 0), every
chunk but the last has length `C` and the last has length
`size - (n - 1) * C`; the lengths sum to `size`; and the full trace is the
`create`, the appends in submission order, then a single `flush` at
position `size`. -/
theorem upload_chunked_partition (L : UploadLimits) (size : Nat)
    (options : FileParallelUploadOptions) (C n : Nat) (A : List (Nat × Nat))
    (hC : C = (resolveChunkSize L size options.chunkSize).toNat)
    (hn : n = (size - 1) / C + 1)
    (hA : A = appendCalls (uploadSeekableInternal L size options).calls)
    (hpos : 0 < size)
    (hmax : size ≤ L.FILE_MAX_SIZE_BYTES)
    (hcs1 : 1 ≤ resolveChunkSize L size options.chunkSize)
    (hcs2 : resolveChunkSize L size options.chunkSize ≤
      (L.FILE_UPLOAD_MAX_CHUNK_SIZE : Int))
    (hmc : 0 < resolveJsNum options.maxConcurrency L.DEFAULT_HIGH_LEVEL_CONCURRENCY)
    (hsut1 : 1 ≤ resolveJsNum options.singleUploadThreshold
      L.FILE_MAX_SINGLE_UPLOAD_THRESHOLD)
    (hsut2 : resolveJsNum options.singleUploadThreshold
        L.FILE_MAX_SINGLE_UPLOAD_THRESHOLD ≤
      (L.FILE_MAX_SINGLE_UPLOAD_THRESHOLD : Int))
    (hbig : resolveJsNum options.singleUploadThreshold
        L.FILE_MAX_SINGLE_UPLOAD_THRESHOLD < (size : Int))
    (hnb : n ≤ L.BLOCK_BLOB_MAX_BLOCKS) :
    n = ceilDiv size C ∧
    A.length = n ∧
    (∀ i, i < n →
      A.getD i (0, 0) = (C * i, if i + 1 = n then size - C * i else C)) ∧
    (∀ i, i + 1 < n →
      (A.getD (i + 1) (0, 0)).1 = (A.getD i (0, 0)).1 + (A.getD i (0, 0)).2) ∧
    (A.map Prod.snd).sum = size ∧
    (uploadSeekableInternal L size options).calls =
      UploadCall.create :: (A.map fun p => UploadCall.append p.1 p.2) ++
        [UploadCall.flush size] := by
  have hC0 : 0 < C := by omega
  have hrun := upload_chunked_run L size options hpos hmax hcs1 hcs2 hmc
    hsut1 hsut2 hbig (by rw [← hC, ← hn]; exact hnb)
  set m := (size - 1) / C with hm
  have hmn : n = m + 1 := by rw [hn, hm]
  have hCm : C * m ≤ size - 1 := by
    have h := Nat.div_mul_le_self (size - 1) C
    calc C * m = m * C := Nat.mul_comm _ _
      _ = (size - 1) / C * C := by rw [hm]
      _ ≤ size - 1 := h
  have hApp : A = (List.range (m + 1)).map fun i =>
      (C * i, (if i = m then size else C * i + C) - C * i) := by
    rw [hA, hrun]
    simp only [appendCalls, appendCalls_append, List.append_eq, List.append_nil]
    rw [uploadChunkCalls, ← hC, ← hm]
    exact appendCalls_map_append (List.range (m + 1)) _ _
  have hget : ∀ i, i < m + 1 → A.getD i (0, 0) =
      (C * i, if i + 1 = m + 1 then size - C * i else C) := by
    intro i hi
    rw [hApp, List.getD_eq_getElem?_getD, List.getElem?_map,
      List.getElem?_range hi]
    simp only [Option.map_some', Option.getD_some]
    by_cases him : i = m
    · simp [him]
    · have hne : ¬ (i + 1 = m + 1) := by omega
      rw [if_neg him, if_neg hne]
      have : i < m := by omega
      congr 1
      omega
  refine ⟨?_, ?_, ?_, ?_, ?_, ?_⟩
  · rw [hmn, ceilDiv]
    have hsz : size + C - 1 = (size - 1) + C := by omega
    rw [hsz, Nat.add_div_right _ hC0, hm]
  · rw [hApp, hmn]
    simp
  · intro i hi
    rw [hmn] at hi ⊢
    exact hget i hi
  · intro i hi
    rw [hmn] at hi
    have h1 := hget i (by omega)
    have h2 := hget (i + 1) (by omega)
    rw [h1, h2]
    simp only
    rw [if_neg (by omega : ¬ (i + 1 = m + 1))]
    ring
  · rw [hApp, List.map_map]
    have hcomp : (Prod.snd ∘ fun i =>
        ((C * i : Nat), (if i = m then size else C * i + C) - C * i)) =
        fun i => (if i = m then size else C * i + C) - C * i := rfl
    rw [hcomp, List.range_succ, List.map_append, List.sum_append]
    have hval : ∀ i ∈ List.range m,
        (if i = m then size else C * i + C) - C * i = C := by
      intro i hi
      have : i < m := List.mem_range.mp hi
      rw [if_neg (by omega)]
      omega
    rw [List.map_congr_left hval]
    have hconst : (List.range m).map (fun _ => C) = List.replicate m C := by
      simp [List.map_const']
    rw [hconst, List.sum_replicate, smul_eq_mul]
    have hlast : (List.map
        (fun i => (if i = m then size else C * i + C) - C * i) [m]).sum =
        size - C * m := by
      simp
    rw [hlast]
    have hcomm : m * C = C * m := Nat.mul_comm m C
    omega
  · rw [hrun, hApp, List.map_map]
    rw [uploadChunkCalls, ← hC, ← hm]
    simp only [List.cons_append, List.cons.injEq, true_and]
    congr 1

/-- Options of the spec's example scenario: chunkSize 4,000,000 and
concurrency 3, with a 4,000,000-byte single-shot threshold so a
10,000,000-byte payload takes the chunked path. -/
def demoChunkOpts : FileParallelUploadOptions :=
  { chunkSize := some 4000000, maxConcurrency := some 3
    singleUploadThreshold := some 4000000 }

/-- Witness for C3: size 10,000,000 with chunkSize 4,000,000 yields 3
append calls whose lengths sum to 10,000,000, followed by the flush. -/
theorem upload_chunked_partition_witness :
    (appendCalls (uploadSeekableInternal demoLimits 10000000
        demoChunkOpts).calls).length = 3 ∧
    ((appendCalls (uploadSeekableInternal demoLimits 10000000
        demoChunkOpts).calls).map Prod.snd).sum = 10000000 := by
  have h := upload_chunked_partition demoLimits 10000000 demoChunkOpts
    4000000 3
    (appendCalls (uploadSeekableInternal demoLimits 10000000 demoChunkOpts).calls)
    (by decide) (by decide) rfl (by decide) (by decide) (by decide) (by decide)
    (by decide) (by decide) (by decide) (by decide) (by decide)
  exact ⟨h.2.1, h.2.2.2.2.1⟩

/-- C4 (amended): only the total-size guard runs before any remote call
(rejecting with zero calls); the `create` call is issued next, and every
later validation failure — resolved chunkSize outside [1, maxChunkSize],
concurrency ≤ 0, resolved single-upload threshold out of range, or chunk
count exceeding the maximum block count — rejects with exactly one remote
call already made, the `create`.  When `chunkSize` is unset (or `0`, which
JavaScript falsiness also treats as unset) it is derived as
`max(defaultChunkSize, ceil(size / maxBlockCount))`. -/
theorem upload_validation_after_create (L : UploadLimits) (size : Nat)
    (options : FileParallelUploadOptions) :
    (L.FILE_MAX_SIZE_BYTES < size →
      uploadSeekableInternal L size options =
        { calls := [], pool := none, outcome := UploadOutcome.rangeError "size" }) ∧
    (size ≤ L.FILE_MAX_SIZE_BYTES → 0 < size →
      ∀ msg, (uploadSeekableInternal L size options).outcome =
          UploadOutcome.rangeError msg →
        (uploadSeekableInternal L size options).calls = [UploadCall.create]) ∧
    (options.chunkSize = none ∨ options.chunkSize = some 0 →
      resolveChunkSize L size options.chunkSize =
        ((max L.FILE_UPLOAD_DEFAULT_CHUNK_SIZE
          (ceilDiv size L.BLOCK_BLOB_MAX_BLOCKS) : Nat) : Int)) := by
  refine ⟨?_, ?_, ?_⟩
  · intro h
    simp [uploadSeekableInternal, h]
  · intro hle hpos msg
    simp only [uploadSeekableInternal]
    rw [if_neg (Nat.not_lt.mpr hle), if_neg (by omega : ¬ size = 0)]
    split
    · intro _; rfl
    · split
      · intro _; rfl
      · split
        · intro _; rfl
        · split
          · intro h; simp at h
          · split
            · intro _; rfl
            · intro h; simp at h
  · intro h
    have hres : resolveChunkSize L size options.chunkSize =
        resolveChunkSize.resolveChunkSizeDerived L size := by
      rcases h with h | h <;> simp [resolveChunkSize, h]
    rw [hres]
    simp only [resolveChunkSize.resolveChunkSizeDerived]
    rw [Nat.cast_max]
    split
    · next hlt => rw [max_eq_left (le_of_lt hlt)]
    · next hge => rw [max_eq_right (not_lt.mp hge)]

/-- Counterexample for C4 as stated: under realistic limits, uploading a
5-byte payload with `maxConcurrency = -1` is rejected by the concurrency
validation, but one remote call — the `create` — has already been issued,
not zero. -/
theorem upload_validation_not_before_create_cex :
    (uploadSeekableInternal demoLimits 5
        { chunkSize := some 4194304, maxConcurrency := some (-1)
          singleUploadThreshold := none }).outcome =
      UploadOutcome.rangeError "maxConcurrency" ∧
    (uploadSeekableInternal demoLimits 5
        { chunkSize := some 4194304, maxConcurrency := some (-1)
          singleUploadThreshold := none }).calls = [UploadCall.create] := by
  decide

/-- Witness for the amended C4: at the counterexample input, the second
conjunct of the amended theorem yields that the rejected run issued
exactly the `create` call. -/
theorem upload_validation_after_create_witness :
    (uploadSeekableInternal demoLimits 5
        { chunkSize := some 4194304, maxConcurrency := some (-1)
          singleUploadThreshold := none }).calls = [UploadCall.create] :=
  (upload_validation_after_create demoLimits 5
      { chunkSize := some 4194304, maxConcurrency := some (-1)
        singleUploadThreshold := none }).2.1
    (by decide) (by decide) "maxConcurrency" (by decide)

/-- Every state reachable by pool scheduling keeps its construction-time
bound and at most that many in-flight tasks. -/
theorem batchPool_invariant (n tasks : Nat) (s : BatchPoolState)
    (h : BatchPoolReachable n tasks s) :
    s.concurrency = n ∧ s.activeOperations ≤ n := by
  induction h with
  | refl => exact ⟨rfl, Nat.zero_le n⟩
  | tail _ hstep ih =>
    obtain ⟨h1, h2⟩ := ih
    cases hstep with
    | start hact hpend => refine ⟨h1, ?_⟩; simp only; omega
    | complete hact => refine ⟨h1, ?_⟩; simp only; omega

/-- C9: during a chunked upload, the worker pool is constructed with bound
`n` equal to the resolved `maxConcurrency` (the run's `pool` field), and
in every state the pool can reach from its initial state the number of
concurrently in-flight append tasks never exceeds `n`. -/
theorem batch_pool_concurrency_bound (L : UploadLimits) (size : Nat)
    (options : FileParallelUploadOptions) (n tasks : Nat)
    (s : BatchPoolState)
    (_hpool : (uploadSeekableInternal L size options).pool = some n)
    (hreach : BatchPoolReachable n tasks s) :
    s.activeOperations ≤ n :=
  (batchPool_invariant n tasks s hreach).2

/-- Witness for C9: the example chunked upload constructs its pool with
bound 3, and the pool's initial state (0 tasks in flight) respects it. -/
theorem batch_pool_concurrency_bound_witness :
    (uploadSeekableInternal demoLimits 10000000 demoChunkOpts).pool = some 3 ∧
    (batchPoolInit 3 3).activeOperations ≤ 3 :=
  ⟨by decide,
    batch_pool_concurrency_bound demoLimits 10000000 demoChunkOpts 3 3
      (batchPoolInit 3 3) (by decide) Relation.ReflTransGen.refl⟩

end DataLake
